import Mathlib

/-!
# my_function::function<T(Args...)>  (src/function.h)

A shallow embedding of the type-erased callable container of `src/function.h`.

* `A` is the argument tuple `Args...`, `R` the result type `T`, `E` the type of
  the exceptions client callables throw.
* A callable value of some client type `M` is a `Callable`: what its call
  operator returns, what its copy and move constructors do, and the two layout
  numbers of `model<M>` that line 89 reads.
* Objects with dynamic storage live in `World.heap`; a `std::unique_ptr` is an
  `Option Addr` (`none` is `nullptr`).
* A container is the pair of its members: the flag `is_small` and the
  anonymous union, `Storage`.  Every member function takes the world and the
  objects it is applied to and returns the world and those objects afterwards
  (two objects passed to one function are two different objects).
* Results are `Except (Fault E) _`: an exception in flight, `std::terminate`,
  or undefined behaviour end the computation.
-/

namespace my_function

/-- An address of an object with dynamic storage duration. -/
abbrev Addr := Nat

/-- How a computation ends when it does not return. -/
inductive Fault (E : Type) where
  /-- an exception thrown by client code (the callable or its constructors) -/
  | thrown (e : E)
  /-- the exception `std::bad_alloc` thrown by `operator new` -/
  | bad_alloc
  /-- the call of `std::terminate` when an exception leaves a `noexcept` function -/
  | terminate
  /-- undefined behaviour: a null or dangling handle dereferenced or deleted,
  the inactive union member read -/
  | undefined
deriving DecidableEq, Repr

/-- The move construction `M(std::move(m))` of a client type `M`. -/
inductive MoveCtor (E : Type) where
  /-- the construction is `noexcept`: `std::is_nothrow_move_constructible<M>` holds -/
  | nothrow
  /-- the construction may throw; on this value it returns (`none`) or throws `e` -/
  | may_throw (e : Option E)
deriving DecidableEq, Repr

/-- A value of a client callable type `M`, as far as the container observes it. -/
structure Callable (A R E : Type) where
  /-- the outcome of `m(args...)` through `M::operator() const` -/
  invoke : A → Except E R
  /-- the value of `sizeof(model<M>)` -/
  sizeof_model : Nat
  /-- the value of `alignof(model<M>)` -/
  alignof_model : Nat
  /-- the behaviour of `M(std::move(m))` -/
  move_ctor : MoveCtor E
  /-- the behaviour of `M(m)`: it returns a copy (`none`) or throws `e` -/
  copy_ctor : Option E

/-- The wrapper `model<M>` (lines 25-50): its only member is `m`. -/
structure model (A R E : Type) where
  /-- line 28, `M m;` -/
  m : Callable A R E

/-- The program state outside the containers: the free store and four event counters. -/
structure World (A R E : Type) where
  /-- the live wrappers with dynamic storage, by address -/
  heap : List (Addr × model A R E)
  /-- how many more calls of `operator new` succeed before it throws `std::bad_alloc` -/
  new_budget : Nat
  /-- successful calls of `operator new` so far -/
  allocations : Nat
  /-- calls of `operator delete` so far -/
  deallocations : Nat
  /-- wrapper constructor runs that completed so far -/
  constructed : Nat
  /-- wrapper destructor runs so far -/
  destroyed : Nat

/-- The anonymous union of lines 54-57. -/
inductive Storage (A R E : Type) where
  /-- the member `buffer` with a wrapper constructed in it -/
  | buffer (obj : model A R E)
  /-- the member `ptr` -/
  | ptr (p : Option Addr)

/-- The data members of `function<T(Args...)>` (lines 53-57). -/
structure function (A R E : Type) where
  /-- line 53 -/
  is_small : Bool
  /-- lines 54-57 -/
  storage : Storage A R E

/-- The three states of section 4.3 of the specification. -/
inductive State where
  | Empty
  | InlineOccupied
  | HeapOccupied
deriving DecidableEq, Repr

variable {A R E : Type}

/-- Line 15. -/
def BUFFER_SIZE : Nat := 64

/-! ## The free store -/

/-- The wrapper living at address `a`, if any. -/
def lookup : List (Addr × model A R E) → Addr → Option (model A R E)
  | [], _ => none
  | (b, obj) :: rest, a => if a = b then some obj else lookup rest a

/-- An address above every address in use (and not the null address). -/
def fresh : List (Addr × model A R E) → Addr
  | [] => 1
  | (b, _) :: rest => max (b + 1) (fresh rest)

/-- The free store without the object at address `a`. -/
def erase : List (Addr × model A R E) → Addr → List (Addr × model A R E)
  | [], _ => []
  | (b, obj) :: rest, a => if a = b then erase rest a else (b, obj) :: erase rest a

/-- An exception that leaves a `noexcept` function calls `std::terminate`. -/
def noexcept {α : Type} (r : Except (Fault E) α) : Except (Fault E) α :=
  match r with
  | .error (.thrown _) => .error .terminate
  | .error .bad_alloc => .error .terminate
  | other => other

/-! ## Client types -/

/-- The construction `M(std::move(m))`: the new value, or the exception. -/
def Callable.move_construct (f : Callable A R E) : Except E (Callable A R E) :=
  match f.move_ctor with
  | .may_throw (some e) => .error e
  | _ => .ok f

/-- The construction `M(m)`: the new value, or the exception. -/
def Callable.copy_construct (f : Callable A R E) : Except E (Callable A R E) :=
  match f.copy_ctor with
  | some e => .error e
  | none => .ok f

/-- The trait `std::is_nothrow_move_constructible<M>::value`. -/
def Callable.is_nothrow_move_constructible (f : Callable A R E) : Bool :=
  match f.move_ctor with
  | .nothrow => true
  | .may_throw _ => false

/-! ## Allocation -/

/-- The expression `std::make_unique<model<M>>(arg)` (lines 46 and 94), `init`
being the outcome of initialising the member `m` from `arg` (lines 30, 31):
`operator new`, then the wrapper constructor; when that throws the storage is
released and the exception propagates. -/
def make_unique (w : World A R E) (init : Except E (Callable A R E)) :
    Except (Fault E) (World A R E × Addr) :=
  match w.new_budget with
  | 0 => .error .bad_alloc
  | n + 1 =>
    match init with
    | .error e => .error (.thrown e)
    | .ok v =>
      .ok ({ w with
              heap := (fresh w.heap, ⟨v⟩) :: w.heap
              new_budget := n
              allocations := w.allocations + 1
              constructed := w.constructed + 1 }, fresh w.heap)

/-- The expression `delete p` for a non-null `p`, as the deleter of
`std::unique_ptr<concept_>` runs it: the virtual destructor (line 22), then
`operator delete`.  Undefined when no wrapper lives at `p`. -/
def delete (w : World A R E) (a : Addr) : Except (Fault E) (World A R E) :=
  match lookup w.heap a with
  | none => .error .undefined
  | some _ =>
    .ok { w with
            heap := erase w.heap a
            deallocations := w.deallocations + 1
            destroyed := w.destroyed + 1 }

/-- The destructor of `std::unique_ptr<concept_>` holding `p`. -/
def unique_ptr_dtor (w : World A R E) (p : Option Addr) : Except (Fault E) (World A R E) :=
  match p with
  | none => .ok w
  | some a => delete w a

/-- The move assignment of `std::unique_ptr<concept_>`, `ptr = std::move(u)`,
on a handle whose value is `old`: the handle takes the value of `u` and the
wrapper `old` pointed to, if `old` is not null, is deleted. -/
def unique_ptr_move_assign (w : World A R E) (old : Option Addr) (u : Option Addr) :
    Except (Fault E) (World A R E × Option Addr) :=
  match unique_ptr_dtor w old with
  | .error e => .error e
  | .ok w1 => .ok (w1, u)

/-! ## model<M> (lines 25-50) -/

/-- Lines 33-35, `model::call`. -/
def model.call (self : model A R E) (args : A) : Except (Fault E) R :=
  match self.m.invoke args with
  | .ok r => .ok r
  | .error e => .error (.thrown e)

/-- Lines 37-39, `model::copy_to_buffer`: the wrapper constructed in `buffer`. -/
def model.copy_to_buffer (self : model A R E) (w : World A R E) :
    Except (Fault E) (World A R E × model A R E) :=
  match self.m.copy_construct with
  | .error e => .error (.thrown e)
  | .ok v => .ok ({ w with constructed := w.constructed + 1 }, ⟨v⟩)

/-- Lines 41-43, `model::move_to_buffer` (declared `noexcept`): the wrapper
constructed in `buffer`.  The wrapper moved from stays alive. -/
def model.move_to_buffer (self : model A R E) (w : World A R E) :
    Except (Fault E) (World A R E × model A R E) :=
  noexcept <|
    match self.m.move_construct with
    | .error e => .error (.thrown e)
    | .ok v => .ok ({ w with constructed := w.constructed + 1 }, ⟨v⟩)

/-- Lines 45-47, `model::copy`: the handle of the new wrapper. -/
def model.copy (self : model A R E) (w : World A R E) :
    Except (Fault E) (World A R E × Addr) :=
  make_unique w self.m.copy_construct

/-- The virtual destructor run on a wrapper in place (lines 100, 114). -/
def model.dtor (_self : model A R E) (w : World A R E) : World A R E :=
  { w with destroyed := w.destroyed + 1 }

/-! ## function<T(Args...)> (lines 52-139) -/

/-- Line 70, `function() noexcept`. -/
def function.default_ctor : function A R E :=
  { is_small := false, storage := .ptr none }

/-- Line 72, `function(std::nullptr_t) noexcept`. -/
def function.nullptr_ctor : function A R E :=
  { is_small := false, storage := .ptr none }

/-- Lines 87-96, `function(F f)`.  `alignof_size_t` is the value of
`alignof(size_t)` on the platform. -/
def function.ctor (alignof_size_t : Nat) (w : World A R E) (f : Callable A R E) :
    Except (Fault E) (World A R E × function A R E) :=
  if f.is_nothrow_move_constructible && decide (f.sizeof_model ≤ BUFFER_SIZE)
      && decide (f.alignof_model ≤ alignof_size_t) then
    match f.move_construct with
    | .error e => .error (.thrown e)
    | .ok v =>
      .ok ({ w with constructed := w.constructed + 1 },
           { is_small := true, storage := .buffer ⟨v⟩ })
  else
    match make_unique w f.move_construct with
    | .error e => .error e
    | .ok (w1, a) => .ok (w1, { is_small := false, storage := .ptr (some a) })

/-- Lines 98-104, `~function()`; the same four statements open
`operator=(function&&)` (lines 113-117). -/
def function.dtor (self : function A R E) (w : World A R E) : Except (Fault E) (World A R E) :=
  if self.is_small then
    match self.storage with
    | .buffer obj => .ok (obj.dtor w)
    | .ptr _ => .error .undefined
  else
    match self.storage with
    | .ptr p => unique_ptr_dtor w p
    | .buffer _ => .error .undefined

/-- Lines 59-67, `move_from`, with the statement `other = function();` of
line 63 passed in as `assign_temporary`.  The result is the world, `*this`
and `other`.  `*this` is raw storage on entry: both branches construct into
it without reading it. -/
def function.move_from_with
    (assign_temporary : World A R E → function A R E → Except (Fault E) (World A R E × function A R E))
    (w : World A R E) (other : function A R E) :
    Except (Fault E) (World A R E × function A R E × function A R E) :=
  if other.is_small then
    match other.storage with
    | .buffer obj =>
      match obj.move_to_buffer w with
      | .error e => .error e
      | .ok (w1, obj1) =>
        match assign_temporary w1 other with
        | .error e => .error e
        | .ok (w2, other1) => .ok (w2, { is_small := true, storage := .buffer obj1 }, other1)
    | .ptr _ => .error .undefined
  else
    match other.storage with
    | .ptr p =>
      .ok (w, { is_small := false, storage := .ptr p }, { is_small := false, storage := .ptr none })
    | .buffer _ => .error .undefined

/-- Lines 112-120, `operator=(function&&) noexcept`, over the same parameter.
The result is the world, `*this` and `other`. -/
def function.move_assign_with
    (assign_temporary : World A R E → function A R E → Except (Fault E) (World A R E × function A R E))
    (self : function A R E) (w : World A R E) (other : function A R E) :
    Except (Fault E) (World A R E × function A R E × function A R E) :=
  noexcept <|
    match self.dtor w with
    | .error e => .error e
    | .ok w1 => function.move_from_with assign_temporary w1 other

/-- The statement `other = function();` of line 63: the temporary of line 70
is move-assigned to `other` and destroyed at the end of the statement.  The
temporary has `is_small == false`, so the `move_from` inside this assignment
takes line 65 and never comes back to line 63. -/
def function.assign_temporary (w : World A R E) (other : function A R E) :
    Except (Fault E) (World A R E × function A R E) :=
  match function.move_assign_with (fun _ _ => .error .undefined) other w function.default_ctor with
  | .error e => .error e
  | .ok (w1, other1, temporary) =>
    match temporary.dtor w1 with
    | .error e => .error e
    | .ok w2 => .ok (w2, other1)

/-- Lines 59-67, `move_from`. -/
def function.move_from (w : World A R E) (other : function A R E) :
    Except (Fault E) (World A R E × function A R E × function A R E) :=
  function.move_from_with function.assign_temporary w other

/-- Lines 112-120, `operator=(function&&) noexcept`. -/
def function.move_assign (self : function A R E) (w : World A R E) (other : function A R E) :
    Except (Fault E) (World A R E × function A R E × function A R E) :=
  function.move_assign_with function.assign_temporary self w other

/-- Lines 83-85, `function(function&&) noexcept`: the world, the new object and `other`. -/
def function.move_ctor (w : World A R E) (other : function A R E) :
    Except (Fault E) (World A R E × function A R E × function A R E) :=
  noexcept (function.move_from w other)

/-- Lines 74-81, `function(const function&) noexcept`.  No member of the union
is initialised before the body, so the assignment of line 79 is the move
assignment of `std::unique_ptr` to the bytes the storage of the new object
happens to hold: it stores the new handle and then deletes the old one when
that is not null.  `junk` is that old value. -/
def function.copy_ctor (w : World A R E) (junk : Option Addr) (other : function A R E) :
    Except (Fault E) (World A R E × function A R E) :=
  noexcept <|
    if other.is_small then
      match other.storage with
      | .buffer obj =>
        match obj.copy_to_buffer w with
        | .error e => .error e
        | .ok (w1, obj1) => .ok (w1, { is_small := true, storage := .buffer obj1 })
      | .ptr _ => .error .undefined
    else
      match other.storage with
      | .ptr none => .error .undefined
      | .ptr (some a) =>
        match lookup w.heap a with
        | none => .error .undefined
        | some obj =>
          match obj.copy w with
          | .error e => .error e
          | .ok (w1, a1) =>
            match unique_ptr_move_assign w1 junk (some a1) with
            | .error e => .error e
            | .ok (w2, p) => .ok (w2, { is_small := false, storage := .ptr p })
      | .buffer _ => .error .undefined

/-- Lines 122-126, `swap(function&) noexcept`: the world, `*this` and `other`. -/
def function.swap (self : function A R E) (w : World A R E) (other : function A R E) :
    Except (Fault E) (World A R E × function A R E × function A R E) :=
  noexcept <|
    match function.move_ctor w other with
    | .error e => .error e
    | .ok (w1, t, other1) =>
      match other1.move_assign w1 self with
      | .error e => .error e
      | .ok (w2, other2, self1) =>
        match self1.move_assign w2 t with
        | .error e => .error e
        | .ok (w3, self2, t1) =>
          match t1.dtor w3 with
          | .error e => .error e
          | .ok w4 => .ok (w4, self2, other2)

/-- Lines 106-110, `operator=(const function&)`: the world and `*this`.
`junk` is what the storage of the local `t` holds before line 107. -/
def function.copy_assign (self : function A R E) (w : World A R E) (junk : Option Addr)
    (other : function A R E) : Except (Fault E) (World A R E × function A R E) :=
  match function.copy_ctor w junk other with
  | .error e => .error e
  | .ok (w1, t) =>
    match self.swap w1 t with
    | .error e => .error e
    | .ok (w2, self1, t1) =>
      match t1.dtor w2 with
      | .error e => .error e
      | .ok w3 => .ok (w3, self1)

/-- Lines 128-130, `explicit operator bool() const noexcept`. -/
def function.operator_bool (self : function A R E) : Except (Fault E) Bool :=
  if self.is_small then .ok true
  else
    match self.storage with
    | .ptr p => .ok p.isSome
    | .buffer _ => .error .undefined

/-- Lines 132-138, `T operator()(Args... args) const`. -/
def function.operator_call (self : function A R E) (w : World A R E) (args : A) :
    Except (Fault E) R :=
  if self.is_small then
    match self.storage with
    | .buffer obj => obj.call args
    | .ptr _ => .error .undefined
  else
    match self.storage with
    | .ptr (some a) =>
      match lookup w.heap a with
      | some obj => obj.call args
      | none => .error .undefined
    | .ptr none => .error .undefined
    | .buffer _ => .error .undefined

/-- Lines 141-144, the free function `swap`: the world, `lhs` and `rhs`. -/
def swap (w : World A R E) (lhs rhs : function A R E) :
    Except (Fault E) (World A R E × function A R E × function A R E) :=
  lhs.swap w rhs

/-! ## The states of a container -/

/-- The state a container is in, when flag and union agree: `Empty` is the
null handle, `HeapOccupied` a non-null handle, `InlineOccupied` a wrapper in
the buffer.  A wrapper is only ever constructed in a buffer for a callable
type that passed the test of line 89; of that test the member functions rely
on the non-throwing move, which is part of the state here. -/
def function.state (self : function A R E) : Option State :=
  match self.is_small, self.storage with
  | true, .buffer obj =>
    if obj.m.is_nothrow_move_constructible then some .InlineOccupied else none
  | false, .ptr none => some .Empty
  | false, .ptr (some _) => some .HeapOccupied
  | _, _ => none

/-- The counters after one wrapper was relocated: one constructed, one destroyed. -/
def relocated (w : World A R E) : World A R E :=
  { w with constructed := w.constructed + 1, destroyed := w.destroyed + 1 }

/-- The world after the wrapper of a container was relocated out of it
(lines 62-63 for a buffer, line 65 for a handle). -/
def function.moved_out (self : function A R E) (w : World A R E) : World A R E :=
  if self.is_small then relocated w else w

/-- A container value that the member functions can produce: the closure of
the constructors under copy and move construction, copy and move assignment
and swap, in any world and for any content of fresh storage. -/
inductive Reachable : function A R E → Prop where
  | default_ctor : Reachable function.default_ctor
  | nullptr_ctor : Reachable function.nullptr_ctor
  | ctor (n : Nat) (w w1 : World A R E) (f : Callable A R E) (c : function A R E) :
      function.ctor n w f = .ok (w1, c) → Reachable c
  | copy_ctor (w w1 : World A R E) (junk : Option Addr) (s c : function A R E) :
      Reachable s → function.copy_ctor w junk s = .ok (w1, c) → Reachable c
  | move_ctor_new (w w1 : World A R E) (s d s1 : function A R E) :
      Reachable s → function.move_ctor w s = .ok (w1, d, s1) → Reachable d
  | move_ctor_source (w w1 : World A R E) (s d s1 : function A R E) :
      Reachable s → function.move_ctor w s = .ok (w1, d, s1) → Reachable s1
  | copy_assign (w w1 : World A R E) (junk : Option Addr) (t s t1 : function A R E) :
      Reachable t → Reachable s → t.copy_assign w junk s = .ok (w1, t1) → Reachable t1
  | move_assign_target (w w1 : World A R E) (t s t1 s1 : function A R E) :
      Reachable t → Reachable s → t.move_assign w s = .ok (w1, t1, s1) → Reachable t1
  | move_assign_source (w w1 : World A R E) (t s t1 s1 : function A R E) :
      Reachable t → Reachable s → t.move_assign w s = .ok (w1, t1, s1) → Reachable s1
  | swap_this (w w1 : World A R E) (a b a1 b1 : function A R E) :
      Reachable a → Reachable b → a.swap w b = .ok (w1, a1, b1) → Reachable a1
  | swap_other (w w1 : World A R E) (a b a1 b1 : function A R E) :
      Reachable a → Reachable b → a.swap w b = .ok (w1, a1, b1) → Reachable b1

/-! ## Example values -/

/-- The closure `[a](int b) { return a + b; }`: a wrapper of 16 bytes. -/
def adder (a : Int) : Callable Int Int String :=
  { invoke := fun b => .ok (a + b)
    sizeof_model := 16
    alignof_model := 8
    move_ctor := .nothrow
    copy_ctor := none }

/-- The same closure with a captured array of 128 bytes beside `a`. -/
def big_adder (a : Int) : Callable Int Int String :=
  { invoke := fun b => .ok (a + b)
    sizeof_model := 144
    alignof_model := 8
    move_ctor := .nothrow
    copy_ctor := none }

/-- A small callable that throws on every call. -/
def thrower : Callable Int Int String :=
  { invoke := fun _ => .error "boom"
    sizeof_model := 8
    alignof_model := 8
    move_ctor := .nothrow
    copy_ctor := none }

/-- A world with nothing allocated, in which `operator new` succeeds four times. -/
def world0 : World Int Int String :=
  { heap := [], new_budget := 4, allocations := 0, deallocations := 0,
    constructed := 0, destroyed := 0 }

/-- The container `function<int(int)>(adder a)`: inline. -/
def small_function (a : Int) : function Int Int String :=
  { is_small := true, storage := .buffer ⟨adder a⟩ }

/-- The container `function<int(int)>(big_adder a)` with its wrapper at address `p`. -/
def big_function (p : Addr) : function Int Int String :=
  { is_small := false, storage := .ptr (some p) }

/-- The world after `function<int(int)>(big_adder a)` was constructed in `world0`. -/
def world1 (a : Int) : World Int Int String :=
  { heap := [(1, ⟨big_adder a⟩)], new_budget := 3, allocations := 1, deallocations := 0,
    constructed := 1, destroyed := 0 }

/-- Whether the handle of the container, when it is not null, points to a live wrapper. -/
def function.alive (self : function A R E) (w : World A R E) : Bool :=
  match self.storage with
  | .ptr (some a) => (lookup w.heap a).isSome
  | _ => true

/-- Whether two containers hold the same non-null handle. -/
def function.shares (self other : function A R E) : Bool :=
  match self.storage, other.storage with
  | .ptr (some a), .ptr (some b) => decide (a = b)
  | _, _ => false

/-- The number of live wrappers a container holds: one in the buffer, one
behind a non-null handle, none behind the null handle. -/
def function.owned (self : function A R E) : Nat :=
  match self.storage with
  | .buffer _ => 1
  | .ptr none => 0
  | .ptr (some _) => 1

/-- The free store was not touched between two worlds: no allocation, no
deallocation, the same wrappers at the same addresses. -/
def same_store (w w1 : World A R E) : Prop :=
  w1.heap = w.heap ∧ w1.allocations = w.allocations ∧ w1.deallocations = w.deallocations
    ∧ w1.new_budget = w.new_budget

/-- The world of `world1` at a moment when `operator new` has no memory left. -/
def world_exhausted (a : Int) : World Int Int String :=
  { heap := [(1, ⟨big_adder a⟩)], new_budget := 0, allocations := 1, deallocations := 0,
    constructed := 1, destroyed := 0 }

/-! ## The free store: lemmas -/

theorem lookup_lt_fresh (h : List (Addr × model A R E)) (a : Addr) (obj : model A R E)
    (hl : lookup h a = some obj) : a < fresh h := by
  induction h with
  | nil => simp [lookup] at hl
  | cons hd rest ih =>
    obtain ⟨b, o⟩ := hd
    simp only [lookup] at hl
    simp only [fresh]
    by_cases hab : a = b
    · subst hab
      exact lt_of_lt_of_le (Nat.lt_succ_self a) (le_max_left _ _)
    · rw [if_neg hab] at hl
      exact lt_of_lt_of_le (ih hl) (le_max_right _ _)

theorem lookup_fresh (h : List (Addr × model A R E)) : lookup h (fresh h) = none := by
  cases hl : lookup h (fresh h) with
  | none => rfl
  | some obj => exact absurd (lookup_lt_fresh h _ obj hl) (lt_irrefl _)

theorem lookup_cons_self (h : List (Addr × model A R E)) (a : Addr) (obj : model A R E) :
    lookup ((a, obj) :: h) a = some obj := by
  simp [lookup]

theorem lookup_cons_fresh_of_some (h : List (Addr × model A R E)) (a : Addr)
    (obj o : model A R E) (hl : lookup h a = some o) :
    lookup ((fresh h, obj) :: h) a = some o := by
  have hlt := lookup_lt_fresh h a o hl
  simp only [lookup]
  rw [if_neg (Nat.ne_of_lt hlt)]
  exact hl

/-! ## Line 63 is the move assignment of a temporary -/

/-- The statement `other = function();` run by `assign_temporary` is the
general `operator=(function&&)` applied to the temporary of line 70, followed
by the destructor of the temporary. -/
theorem assign_temporary_eq_move_assign (w : World A R E) (other : function A R E) :
    function.assign_temporary w other =
      match other.move_assign w function.default_ctor with
      | .error e => .error e
      | .ok (w1, other1, temporary) =>
        match temporary.dtor w1 with
        | .error e => .error e
        | .ok w2 => .ok (w2, other1) := by
  rfl

/-! ## What the relocating functions do in each state -/

theorem state_cases (s : function A R E) (k : State) (h : s.state = some k) :
    (∃ obj, s = ⟨true, .buffer obj⟩ ∧ obj.m.is_nothrow_move_constructible = true
        ∧ k = .InlineOccupied)
    ∨ (s = ⟨false, .ptr none⟩ ∧ k = .Empty)
    ∨ (∃ a, s = ⟨false, .ptr (some a)⟩ ∧ k = .HeapOccupied) := by
  obtain ⟨b, st⟩ := s
  cases b with
  | true =>
    cases st with
    | buffer obj =>
      by_cases hn : obj.m.is_nothrow_move_constructible = true
      · simp only [function.state, hn, if_true, Option.some.injEq] at h
        exact Or.inl ⟨obj, rfl, hn, h.symm⟩
      · simp [function.state, hn] at h
    | ptr p => simp [function.state] at h
  | false =>
    cases st with
    | buffer obj => simp [function.state] at h
    | ptr p =>
      cases p with
      | none =>
        simp only [function.state, Option.some.injEq] at h
        exact Or.inr (Or.inl ⟨rfl, h.symm⟩)
      | some a =>
        simp only [function.state, Option.some.injEq] at h
        exact Or.inr (Or.inr ⟨a, rfl, h.symm⟩)

theorem move_construct_nothrow (f : Callable A R E)
    (h : f.is_nothrow_move_constructible = true) : f.move_construct = .ok f := by
  unfold Callable.is_nothrow_move_constructible at h
  unfold Callable.move_construct
  cases hm : f.move_ctor with
  | nothrow => rfl
  | may_throw e => rw [hm] at h; exact absurd h (by simp)

theorem move_from_buffer (w : World A R E) (obj : model A R E)
    (h : obj.m.is_nothrow_move_constructible = true) :
    function.move_from w ⟨true, .buffer obj⟩
      = .ok (relocated w, ⟨true, .buffer obj⟩, function.default_ctor) := by
  simp only [function.move_from, function.move_from_with, model.move_to_buffer,
    move_construct_nothrow obj.m h, noexcept, if_true]
  rfl

theorem move_from_ptr (w : World A R E) (p : Option Addr) :
    function.move_from w ⟨false, .ptr p⟩
      = .ok (w, ⟨false, .ptr p⟩, function.default_ctor) := by
  rfl

theorem move_from_of_state (w : World A R E) (s : function A R E) (k : State)
    (h : s.state = some k) :
    function.move_from w s = .ok (s.moved_out w, s, function.default_ctor) := by
  rcases state_cases s k h with ⟨obj, rfl, hn, -⟩ | ⟨rfl, -⟩ | ⟨a, rfl, -⟩
  · exact move_from_buffer w obj hn
  · rfl
  · rfl

theorem move_ctor_of_state (w : World A R E) (s : function A R E) (k : State)
    (h : s.state = some k) :
    function.move_ctor w s = .ok (s.moved_out w, s, function.default_ctor) := by
  simp only [function.move_ctor, move_from_of_state w s k h, noexcept]

theorem move_assign_of_dtor (w w1 : World A R E) (t s : function A R E) (k : State)
    (hd : t.dtor w = .ok w1) (hs : s.state = some k) :
    t.move_assign w s = .ok (s.moved_out w1, s, function.default_ctor) := by
  have hm := move_from_of_state w1 s k hs
  unfold function.move_from at hm
  simp only [function.move_assign, function.move_assign_with, hd, hm, noexcept]

theorem dtor_default (w : World A R E) :
    (function.default_ctor : function A R E).dtor w = .ok w := by
  rfl

theorem moved_out_heap (s : function A R E) (w : World A R E) :
    (s.moved_out w).heap = w.heap := by
  unfold function.moved_out relocated
  split <;> rfl

theorem swap_of_state (w : World A R E) (a b : function A R E) (ka kb : State)
    (ha : a.state = some ka) (hb : b.state = some kb) :
    a.swap w b = .ok (b.moved_out (a.moved_out (b.moved_out w)), b, a) := by
  simp only [function.swap, move_ctor_of_state w b kb hb,
    move_assign_of_dtor _ _ _ a ka (dtor_default _) ha,
    move_assign_of_dtor _ _ _ b kb (dtor_default _) hb, dtor_default, noexcept]

theorem operator_call_heap_congr (c : function A R E) (w w1 : World A R E) (args : A)
    (h : w1.heap = w.heap) : c.operator_call w1 args = c.operator_call w args := by
  unfold function.operator_call
  rw [h]

theorem state_default : (function.default_ctor : function A R E).state = some .Empty := by
  rfl

theorem operator_bool_default :
    (function.default_ctor : function A R E).operator_bool = .ok false := by
  rfl

theorem lookup_erase_self (h : List (Addr × model A R E)) (a : Addr) :
    lookup (erase h a) a = none := by
  induction h with
  | nil => rfl
  | cons hd rest ih =>
    obtain ⟨b, o⟩ := hd
    simp only [erase]
    by_cases hab : a = b
    · rw [if_pos hab]; exact ih
    · rw [if_neg hab]
      simp only [lookup]
      rw [if_neg hab]; exact ih

theorem lookup_erase_ne (h : List (Addr × model A R E)) (a c : Addr) (hne : c ≠ a) :
    lookup (erase h a) c = lookup h c := by
  induction h with
  | nil => rfl
  | cons hd rest ih =>
    obtain ⟨b, o⟩ := hd
    simp only [erase]
    by_cases hab : a = b
    · rw [if_pos hab]
      simp only [lookup]
      rw [if_neg (by rw [← hab]; exact hne)]
      exact ih
    · rw [if_neg hab]
      simp only [lookup]
      rw [ih]

theorem move_construct_ok (f v : Callable A R E) (h : f.move_construct = .ok v) : v = f := by
  unfold Callable.move_construct at h
  split at h
  · cases h
  · cases h; rfl

theorem copy_construct_ok (f v : Callable A R E) (h : f.copy_construct = .ok v) : v = f := by
  unfold Callable.copy_construct at h
  split at h
  · cases h
  · cases h; rfl

theorem ctor_inline (n : Nat) (w : World A R E) (f : Callable A R E)
    (hn : f.is_nothrow_move_constructible = true) (hs : f.sizeof_model ≤ BUFFER_SIZE)
    (ha : f.alignof_model ≤ n) :
    function.ctor n w f
      = .ok ({ w with constructed := w.constructed + 1 }, ⟨true, .buffer ⟨f⟩⟩) := by
  simp only [function.ctor, hn, hs, ha, decide_True, Bool.and_self, if_true,
    move_construct_nothrow f hn]

theorem ctor_heap (n : Nat) (w w1 : World A R E) (f : Callable A R E) (c : function A R E)
    (hc : ¬ (f.is_nothrow_move_constructible = true ∧ f.sizeof_model ≤ BUFFER_SIZE
              ∧ f.alignof_model ≤ n))
    (h : function.ctor n w f = .ok (w1, c)) :
    c = ⟨false, .ptr (some (fresh w.heap))⟩ ∧ w1.heap = (fresh w.heap, ⟨f⟩) :: w.heap
      ∧ w1.allocations = w.allocations + 1 ∧ w1.deallocations = w.deallocations := by
  have hcond : (f.is_nothrow_move_constructible && decide (f.sizeof_model ≤ BUFFER_SIZE)
      && decide (f.alignof_model ≤ n)) = false := by
    rw [Bool.eq_false_iff]
    intro hb
    simp only [Bool.and_eq_true, decide_eq_true_eq] at hb
    exact hc ⟨hb.1.1, hb.1.2, hb.2⟩
  simp only [function.ctor, hcond, make_unique] at h
  cases hb : w.new_budget with
  | zero => simp [hb] at h
  | succ b =>
    cases hm : f.move_construct with
    | error e => simp [hb, hm] at h
    | ok v =>
      have hv := move_construct_ok f v hm
      subst hv
      simp only [hb, hm, Except.ok.injEq, Prod.mk.injEq] at h
      obtain ⟨rfl, rfl⟩ := h
      exact ⟨rfl, rfl, rfl, rfl⟩

/-- C1: invoking the container constructed from a callable `f` gives the
outcome of `f` itself, in both storage modes: the value `f` returns, or the
exception `f` throws, unchanged; and the construction does return a container
whenever the wrapper goes inline, or `operator new` has budget left and the
move of `f` into the wrapper does not throw. -/
theorem call_forwards_to_callable (n : Nat) (w : World A R E) (f : Callable A R E) :
    (((f.is_nothrow_move_constructible = true ∧ f.sizeof_model ≤ 64 ∧ f.alignof_model ≤ n)
        ∨ (0 < w.new_budget ∧ f.move_construct = .ok f)) →
      ∃ w1 c, function.ctor n w f = .ok (w1, c)) ∧
    (∀ w1 c, function.ctor n w f = .ok (w1, c) → ∀ args : A,
      (∀ r, f.invoke args = .ok r → c.operator_call w1 args = .ok r) ∧
      (∀ e, f.invoke args = .error e → c.operator_call w1 args = .error (.thrown e))) := by
  by_cases hc : f.is_nothrow_move_constructible = true ∧ f.sizeof_model ≤ BUFFER_SIZE
      ∧ f.alignof_model ≤ n
  · have hctor := ctor_inline n w f hc.1 hc.2.1 hc.2.2
    refine ⟨fun _ => ⟨_, _, hctor⟩, ?_⟩
    intro w1 c h args
    rw [hctor] at h
    simp only [Except.ok.injEq, Prod.mk.injEq] at h
    obtain ⟨-, rfl⟩ := h
    constructor
    · intro r hr
      simp [function.operator_call, model.call, hr]
    · intro e he
      simp [function.operator_call, model.call, he]
  · constructor
    · rintro (hin | ⟨hb, hm⟩)
      · exact absurd hin hc
      · have hcond : (f.is_nothrow_move_constructible && decide (f.sizeof_model ≤ BUFFER_SIZE)
            && decide (f.alignof_model ≤ n)) = false := by
          rw [Bool.eq_false_iff]
          intro hb
          simp only [Bool.and_eq_true, decide_eq_true_eq] at hb
          exact hc ⟨hb.1.1, hb.1.2, hb.2⟩
        obtain ⟨b, hb1⟩ := Nat.exists_eq_succ_of_ne_zero (Nat.pos_iff_ne_zero.mp hb)
        simp only [function.ctor, hcond, make_unique, hb1, hm]
        exact ⟨_, _, rfl⟩
    · intro w1 c h args
      obtain ⟨rfl, hh, -, -⟩ := ctor_heap n w w1 f c hc h
      constructor
      · intro r hr
        simp [function.operator_call, model.call, hh, lookup, hr]
      · intro e he
        simp [function.operator_call, model.call, hh, lookup, he]

theorem call_forwards_to_callable_witness :
    (small_function 3).operator_call
        ({ world0 with constructed := 1 } : World Int Int String) 4 = .ok 7
    ∧ (big_function 1).operator_call (world1 3) 4 = .ok 7
    ∧ (⟨true, .buffer ⟨thrower⟩⟩ : function Int Int String).operator_call
        ({ world0 with constructed := 1 } : World Int Int String) 4 = .error (.thrown "boom")
    ∧ (∃ w1 c, function.ctor 8 world0 (big_adder 3) = .ok (w1, c)) := by
  refine ⟨?_, ?_, ?_, ?_⟩
  · exact ((call_forwards_to_callable 8 world0 (adder 3)).2 _ (small_function 3) rfl 4).1 7 rfl
  · exact ((call_forwards_to_callable 8 world0 (big_adder 3)).2 (world1 3) (big_function 1)
      rfl 4).1 7 rfl
  · exact ((call_forwards_to_callable 8 world0 thrower).2 _ _ rfl 4).2 "boom" rfl
  · exact (call_forwards_to_callable 8 world0 (big_adder 3)).1 (Or.inr ⟨by decide, rfl⟩)

/-- C3: move construction from a container in any of the three states returns;
it leaves the source Empty (its boolean test is false), and the new container
is in the state the source was in and gives, for every argument, the outcome
the source gave before the move. -/
theorem move_ctor_transfers (w : World A R E) (s : function A R E) (k : State)
    (hs : s.state = some k) :
    ∃ w1 d s1, function.move_ctor w s = .ok (w1, d, s1)
      ∧ s1.state = some .Empty ∧ s1.operator_bool = .ok false
      ∧ d.state = some k
      ∧ ∀ args : A, d.operator_call w1 args = s.operator_call w args := by
  refine ⟨_, _, _, move_ctor_of_state w s k hs, state_default, operator_bool_default, hs, ?_⟩
  intro args
  exact operator_call_heap_congr s w _ args (moved_out_heap s w)

theorem move_ctor_transfers_witness :
    ∃ w1 d s1, function.move_ctor world0 (small_function 3) = .ok (w1, d, s1)
      ∧ s1.state = some .Empty ∧ s1.operator_bool = .ok false
      ∧ d.state = some .InlineOccupied
      ∧ ∀ args : Int, d.operator_call w1 args = (small_function 3).operator_call world0 args :=
  move_ctor_transfers world0 (small_function 3) .InlineOccupied rfl

/-- C4: for two containers in any combination of the three states, `swap`
returns and exchanges them: each is afterwards in the state the other was in
and gives, for every argument, the outcome the other gave before; the free
function `swap` does the same as the member. -/
theorem swap_exchanges (w : World A R E) (a b : function A R E) (ka kb : State)
    (ha : a.state = some ka) (hb : b.state = some kb) :
    ∃ w1 a1 b1, a.swap w b = .ok (w1, a1, b1) ∧ swap w a b = .ok (w1, a1, b1)
      ∧ a1.state = some kb ∧ b1.state = some ka
      ∧ (∀ args : A, a1.operator_call w1 args = b.operator_call w args)
      ∧ (∀ args : A, b1.operator_call w1 args = a.operator_call w args) := by
  have hsw := swap_of_state w a b ka kb ha hb
  have hheap : (b.moved_out (a.moved_out (b.moved_out w))).heap = w.heap := by
    rw [moved_out_heap, moved_out_heap, moved_out_heap]
  refine ⟨_, _, _, hsw, hsw, hb, ha, ?_, ?_⟩
  · intro args
    exact operator_call_heap_congr b w _ args hheap
  · intro args
    exact operator_call_heap_congr a w _ args hheap

theorem swap_exchanges_witness :
    ∃ w1 a1 b1, (small_function 3).swap (world1 5) (big_function 1) = .ok (w1, a1, b1)
      ∧ swap (world1 5) (small_function 3) (big_function 1) = .ok (w1, a1, b1)
      ∧ a1.state = some .HeapOccupied ∧ b1.state = some .InlineOccupied
      ∧ (∀ args : Int, a1.operator_call w1 args = (big_function 1).operator_call (world1 5) args)
      ∧ (∀ args : Int, b1.operator_call w1 args
            = (small_function 3).operator_call (world1 5) args) :=
  swap_exchanges (world1 5) (small_function 3) (big_function 1) .InlineOccupied .HeapOccupied
    rfl rfl

/-- C5: the constructor from a callable selects inline mode exactly when the
callable type is nothrow move constructible and its wrapper has size at most
64 and alignment at most that of `size_t`; in every other case it selects
heap mode. -/
theorem ctor_mode_selection (n : Nat) (w w1 : World A R E) (f : Callable A R E)
    (c : function A R E) (h : function.ctor n w f = .ok (w1, c)) :
    (c.state = some .InlineOccupied ↔
      (f.is_nothrow_move_constructible = true ∧ f.sizeof_model ≤ 64 ∧ f.alignof_model ≤ n))
    ∧ (c.state = some .HeapOccupied ↔
      ¬ (f.is_nothrow_move_constructible = true ∧ f.sizeof_model ≤ 64 ∧ f.alignof_model ≤ n))
    ∧ (c.is_small = true ↔
      (f.is_nothrow_move_constructible = true ∧ f.sizeof_model ≤ 64 ∧ f.alignof_model ≤ n)) := by
  by_cases hc : f.is_nothrow_move_constructible = true ∧ f.sizeof_model ≤ BUFFER_SIZE
      ∧ f.alignof_model ≤ n
  · have hctor := ctor_inline n w f hc.1 hc.2.1 hc.2.2
    rw [hctor] at h
    simp only [Except.ok.injEq, Prod.mk.injEq] at h
    obtain ⟨-, rfl⟩ := h
    have hc1 : f.is_nothrow_move_constructible = true ∧ f.sizeof_model ≤ 64
        ∧ f.alignof_model ≤ n := hc
    have hst : (⟨true, .buffer ⟨f⟩⟩ : function A R E).state = some .InlineOccupied := by
      simp [function.state, hc.1]
    refine ⟨⟨fun _ => hc1, fun _ => hst⟩, ⟨fun h1 => ?_, fun h1 => absurd hc1 h1⟩,
      ⟨fun _ => hc1, fun _ => rfl⟩⟩
    rw [hst] at h1
    cases h1
  · obtain ⟨rfl, -, -, -⟩ := ctor_heap n w w1 f c hc h
    have hc1 : ¬ (f.is_nothrow_move_constructible = true ∧ f.sizeof_model ≤ 64
        ∧ f.alignof_model ≤ n) := hc
    refine ⟨⟨fun h1 => ?_, fun h1 => absurd h1 hc1⟩, ⟨fun _ => hc1, fun _ => rfl⟩,
      ⟨fun h1 => ?_, fun h1 => absurd h1 hc1⟩⟩
    · simp [function.state] at h1
    · simp at h1

theorem ctor_mode_selection_witness :
    ((small_function 3).state = some .InlineOccupied ↔
      ((adder 3).is_nothrow_move_constructible = true ∧ (adder 3).sizeof_model ≤ 64
        ∧ (adder 3).alignof_model ≤ 8))
    ∧ ((small_function 3).state = some .HeapOccupied ↔
      ¬ ((adder 3).is_nothrow_move_constructible = true ∧ (adder 3).sizeof_model ≤ 64
        ∧ (adder 3).alignof_model ≤ 8))
    ∧ ((small_function 3).is_small = true ↔
      ((adder 3).is_nothrow_move_constructible = true ∧ (adder 3).sizeof_model ≤ 64
        ∧ (adder 3).alignof_model ≤ 8)) :=
  ctor_mode_selection 8 world0 _ (adder 3) (small_function 3) rfl

/-- C7: the default constructor and the constructor from `nullptr` both give
the Empty state, which is heap mode (`is_small` false) with a null handle, and
both containers test false. -/
theorem empty_ctors :
    (function.default_ctor : function A R E) = ⟨false, .ptr none⟩
    ∧ (function.nullptr_ctor : function A R E) = ⟨false, .ptr none⟩
    ∧ (function.default_ctor : function A R E).state = some .Empty
    ∧ (function.nullptr_ctor : function A R E).state = some .Empty
    ∧ (function.default_ctor : function A R E).operator_bool = .ok false
    ∧ (function.nullptr_ctor : function A R E).operator_bool = .ok false :=
  ⟨rfl, rfl, rfl, rfl, rfl, rfl⟩

theorem noexcept_ok {α : Type} (r : Except (Fault E) α) (x : α) (h : noexcept r = .ok x) :
    r = .ok x := by
  unfold noexcept at h
  split at h
  · cases h
  · cases h
  · exact h

theorem copy_ctor_state (w w1 : World A R E) (junk : Option Addr) (s c : function A R E)
    (k : State) (hs : s.state = some k) (h : function.copy_ctor w junk s = .ok (w1, c)) :
    c.state = some k := by
  have h1 := noexcept_ok _ _ h
  rcases state_cases s k hs with ⟨obj, rfl, hn, rfl⟩ | ⟨rfl, rfl⟩ | ⟨a, rfl, rfl⟩
  · simp only [if_true, model.copy_to_buffer] at h1
    cases hc : obj.m.copy_construct with
    | error e => simp [hc] at h1
    | ok v =>
      have hv := copy_construct_ok obj.m v hc
      subst hv
      simp only [hc, Except.ok.injEq, Prod.mk.injEq] at h1
      obtain ⟨-, rfl⟩ := h1
      simp [function.state, hn]
  · simp at h1
  · simp only [Bool.false_eq_true, if_false] at h1
    cases hl : lookup w.heap a with
    | none => simp [hl] at h1
    | some obj =>
      simp only [hl] at h1
      cases hcp : obj.copy w with
      | error e => simp [hcp] at h1
      | ok r =>
        obtain ⟨w2, a1⟩ := r
        simp only [hcp, unique_ptr_move_assign] at h1
        cases hd : unique_ptr_dtor w2 junk with
        | error e => simp [hd] at h1
        | ok w3 =>
          simp only [hd, Except.ok.injEq, Prod.mk.injEq] at h1
          obtain ⟨-, rfl⟩ := h1
          rfl

theorem move_assign_ok (w w1 : World A R E) (t s t1 s1 : function A R E) (k : State)
    (hs : s.state = some k) (h : t.move_assign w s = .ok (w1, t1, s1)) :
    ∃ w0, t.dtor w = .ok w0 ∧ w1 = s.moved_out w0 ∧ t1 = s ∧ s1 = function.default_ctor := by
  cases hd : t.dtor w with
  | error e =>
    have h1 := noexcept_ok _ _ h
    simp [hd] at h1
  | ok w0 =>
    rw [move_assign_of_dtor w w0 t s k hd hs] at h
    simp only [Except.ok.injEq, Prod.mk.injEq] at h
    obtain ⟨rfl, rfl, rfl⟩ := h
    exact ⟨w0, rfl, rfl, rfl, rfl⟩

theorem copy_assign_state (w w1 : World A R E) (junk : Option Addr) (t s t1 : function A R E)
    (kt ks : State) (ht : t.state = some kt) (hs : s.state = some ks)
    (h : t.copy_assign w junk s = .ok (w1, t1)) : t1.state = some ks := by
  unfold function.copy_assign at h
  cases hc : function.copy_ctor w junk s with
  | error e => simp [hc] at h
  | ok r =>
    obtain ⟨w2, c⟩ := r
    have hcs := copy_ctor_state w w2 junk s c ks hs hc
    simp only [hc, swap_of_state w2 t c kt ks ht hcs] at h
    cases hd : t.dtor (c.moved_out (t.moved_out (c.moved_out w2))) with
    | error e => simp [hd] at h
    | ok w3 =>
      simp only [hd, Except.ok.injEq, Prod.mk.injEq] at h
      obtain ⟨-, rfl⟩ := h
      exact hcs

/-- Every container value the member functions produce is in one of the three states. -/
theorem reachable_state (c : function A R E) (h : Reachable c) : ∃ k, c.state = some k := by
  induction h with
  | default_ctor => exact ⟨_, state_default⟩
  | nullptr_ctor => exact ⟨_, state_default⟩
  | ctor n w w1 f c hc =>
    by_cases hcond : f.is_nothrow_move_constructible = true ∧ f.sizeof_model ≤ BUFFER_SIZE
        ∧ f.alignof_model ≤ n
    · rw [ctor_inline n w f hcond.1 hcond.2.1 hcond.2.2] at hc
      simp only [Except.ok.injEq, Prod.mk.injEq] at hc
      obtain ⟨-, rfl⟩ := hc
      exact ⟨.InlineOccupied, by simp [function.state, hcond.1]⟩
    · obtain ⟨rfl, -, -, -⟩ := ctor_heap n w w1 f c hcond hc
      exact ⟨.HeapOccupied, rfl⟩
  | copy_ctor w w1 junk s c _ hc ih =>
    obtain ⟨k, hk⟩ := ih
    exact ⟨k, copy_ctor_state w w1 junk s c k hk hc⟩
  | move_ctor_new w w1 s d s1 _ hm ih =>
    obtain ⟨k, hk⟩ := ih
    rw [move_ctor_of_state w s k hk] at hm
    simp only [Except.ok.injEq, Prod.mk.injEq] at hm
    obtain ⟨-, rfl, -⟩ := hm
    exact ⟨k, hk⟩
  | move_ctor_source w w1 s d s1 _ hm ih =>
    obtain ⟨k, hk⟩ := ih
    rw [move_ctor_of_state w s k hk] at hm
    simp only [Except.ok.injEq, Prod.mk.injEq] at hm
    obtain ⟨-, -, rfl⟩ := hm
    exact ⟨_, state_default⟩
  | copy_assign w w1 junk t s t1 _ _ hc iht ihs =>
    obtain ⟨kt, hkt⟩ := iht
    obtain ⟨ks, hks⟩ := ihs
    exact ⟨ks, copy_assign_state w w1 junk t s t1 kt ks hkt hks hc⟩
  | move_assign_target w w1 t s t1 s1 _ _ hm _ ihs =>
    obtain ⟨ks, hks⟩ := ihs
    obtain ⟨_, -, -, rfl, -⟩ := move_assign_ok w w1 t s t1 s1 ks hks hm
    exact ⟨ks, hks⟩
  | move_assign_source w w1 t s t1 s1 _ _ hm _ ihs =>
    obtain ⟨ks, hks⟩ := ihs
    obtain ⟨_, -, -, -, rfl⟩ := move_assign_ok w w1 t s t1 s1 ks hks hm
    exact ⟨_, state_default⟩
  | swap_this w w1 a b a1 b1 _ _ hsw iha ihb =>
    obtain ⟨ka, hka⟩ := iha
    obtain ⟨kb, hkb⟩ := ihb
    rw [swap_of_state w a b ka kb hka hkb] at hsw
    simp only [Except.ok.injEq, Prod.mk.injEq] at hsw
    obtain ⟨-, rfl, -⟩ := hsw
    exact ⟨kb, hkb⟩
  | swap_other w w1 a b a1 b1 _ _ hsw iha ihb =>
    obtain ⟨ka, hka⟩ := iha
    obtain ⟨kb, hkb⟩ := ihb
    rw [swap_of_state w a b ka kb hka hkb] at hsw
    simp only [Except.ok.injEq, Prod.mk.injEq] at hsw
    obtain ⟨-, -, rfl⟩ := hsw
    exact ⟨ka, hka⟩

/-- C6: for every container value the member functions produce, the boolean
test returns; it is true exactly when the container is InlineOccupied or
HeapOccupied (its handle not null), and false exactly when it is Empty. -/
theorem operator_bool_iff_occupied (c : function A R E) (h : Reachable c) :
    (∃ b, c.operator_bool = .ok b)
    ∧ (c.operator_bool = .ok true ↔
        (c.state = some .InlineOccupied
          ∨ (c.state = some .HeapOccupied ∧ ∃ a, c.storage = .ptr (some a))))
    ∧ (c.operator_bool = .ok false ↔ c.state = some .Empty) := by
  obtain ⟨k, hk⟩ := reachable_state c h
  rcases state_cases c k hk with ⟨obj, rfl, hn, rfl⟩ | ⟨rfl, rfl⟩ | ⟨a, rfl, rfl⟩
  · refine ⟨⟨true, rfl⟩, ⟨fun _ => Or.inl hk, fun _ => rfl⟩, ⟨fun h1 => ?_, fun h1 => ?_⟩⟩
    · simp [function.operator_bool] at h1
    · rw [hk] at h1
      cases h1
  · refine ⟨⟨false, rfl⟩, ⟨fun h1 => ?_, fun h1 => ?_⟩, ⟨fun _ => rfl, fun _ => rfl⟩⟩
    · simp [function.operator_bool] at h1
    · rcases h1 with h1 | ⟨h1, -⟩ <;> simp [function.state] at h1
  · refine ⟨⟨true, rfl⟩, ⟨fun _ => Or.inr ⟨rfl, a, rfl⟩, fun _ => rfl⟩,
      ⟨fun h1 => ?_, fun h1 => ?_⟩⟩
    · simp [function.operator_bool] at h1
    · simp [function.state] at h1

theorem operator_bool_iff_occupied_witness :
    (∃ b, (small_function 3).operator_bool = .ok b)
    ∧ ((small_function 3).operator_bool = .ok true ↔
        ((small_function 3).state = some .InlineOccupied
          ∨ ((small_function 3).state = some .HeapOccupied
              ∧ ∃ a, (small_function 3).storage = .ptr (some a))))
    ∧ ((small_function 3).operator_bool = .ok false ↔ (small_function 3).state = some .Empty) :=
  operator_bool_iff_occupied (small_function 3)
    (Reachable.ctor 8 world0 { world0 with constructed := 1 } (adder 3) (small_function 3) rfl)

theorem dtor_of_state (w : World A R E) (t : function A R E) (k : State)
    (ht : t.state = some k) (hl : t.alive w = true) :
    ∃ w1, t.dtor w = .ok w1
      ∧ w1.destroyed = w.destroyed + (if k = .Empty then 0 else 1)
      ∧ w1.deallocations = w.deallocations + (if k = .HeapOccupied then 1 else 0)
      ∧ (∀ a, t.storage = .ptr (some a) → w1.heap = erase w.heap a)
      ∧ (t.storage = .ptr none → w1.heap = w.heap)
      ∧ (∀ obj, t.storage = .buffer obj → w1.heap = w.heap) := by
  rcases state_cases t k ht with ⟨obj, rfl, hn, rfl⟩ | ⟨rfl, rfl⟩ | ⟨a, rfl, rfl⟩
  · refine ⟨obj.dtor w, rfl, rfl, rfl, ?_, ?_, ?_⟩
    · intro a ha; cases ha
    · intro ha; cases ha
    · intro o _; rfl
  · refine ⟨w, rfl, rfl, rfl, ?_, ?_, ?_⟩
    · intro a ha; cases ha
    · intro _; rfl
    · intro o ho; cases ho
  · simp only [function.alive] at hl
    cases hlk : lookup w.heap a with
    | none => simp [hlk] at hl
    | some o =>
      refine ⟨{ w with heap := erase w.heap a, deallocations := w.deallocations + 1,
                       destroyed := w.destroyed + 1 }, ?_, rfl, rfl, ?_, ?_, ?_⟩
      · simp [function.dtor, unique_ptr_dtor, delete, hlk]
      · intro b hb
        cases hb
        rfl
      · intro ha; cases ha
      · intro o ho; cases ho

theorem operator_call_erase (s : function A R E) (w w1 : World A R E) (a : Addr) (args : A)
    (hh : w1.heap = erase w.heap a) (hne : ∀ b, s.storage = .ptr (some b) → b ≠ a) :
    s.operator_call w1 args = s.operator_call w args := by
  obtain ⟨b, st⟩ := s
  cases st with
  | buffer obj => cases b <;> rfl
  | ptr p =>
    cases p with
    | none => cases b <;> rfl
    | some c =>
      cases b with
      | true => rfl
      | false =>
        simp only [function.operator_call, hh, Bool.false_eq_true, if_false]
        rw [lookup_erase_ne _ _ _ (hne c rfl)]

/-- C10: for a target and a source in any combination of the three states
(two containers, each the only owner of its wrapper, the target's handle
live), move assignment returns; it first destroys the wrapper the target
held, in the way of the target's mode (in place for a buffer, through
`delete` for a non-null handle, nothing for Empty), and then leaves the target
in the source's state, giving for every argument the outcome the source gave
before, and the source Empty. -/
theorem move_assign_transfers (w : World A R E) (t s : function A R E) (kt ks : State)
    (ht : t.state = some kt) (hs : s.state = some ks)
    (hl : t.alive w = true) (hsh : t.shares s = false) :
    ∃ w1 w2 t1 s1, t.dtor w = .ok w1 ∧ t.move_assign w s = .ok (w2, t1, s1)
      ∧ w2 = s.moved_out w1
      ∧ w1.destroyed = w.destroyed + (if kt = .Empty then 0 else 1)
      ∧ w1.deallocations = w.deallocations + (if kt = .HeapOccupied then 1 else 0)
      ∧ (∀ a, t.storage = .ptr (some a) → lookup w2.heap a = none)
      ∧ t1.state = some ks
      ∧ (∀ args : A, t1.operator_call w2 args = s.operator_call w args)
      ∧ s1.state = some .Empty ∧ s1.operator_bool = .ok false := by
  obtain ⟨w1, hd, hdes, hdea, hheap, hnone, hbuf⟩ := dtor_of_state w t kt ht hl
  refine ⟨w1, s.moved_out w1, s, function.default_ctor, hd,
    move_assign_of_dtor w w1 t s ks hd hs, rfl, hdes, hdea, ?_, hs, ?_,
    state_default, operator_bool_default⟩
  · intro a ha
    rw [moved_out_heap, hheap a ha]
    exact lookup_erase_self _ _
  · intro args
    rw [operator_call_heap_congr s w1 (s.moved_out w1) args (moved_out_heap s w1)]
    cases hst : t.storage with
    | buffer obj => exact operator_call_heap_congr s w w1 args (hbuf obj hst)
    | ptr p =>
      cases p with
      | none => exact operator_call_heap_congr s w w1 args (hnone hst)
      | some a =>
        apply operator_call_erase s w w1 a args (hheap a hst)
        intro b hb hba
        subst hba
        simp [function.shares, hst, hb] at hsh

theorem move_assign_transfers_witness :
    ∃ w1 w2 t1 s1, (big_function 1).dtor (world1 5) = .ok w1
      ∧ (big_function 1).move_assign (world1 5) (small_function 3) = .ok (w2, t1, s1)
      ∧ w2 = (small_function 3).moved_out w1
      ∧ w1.destroyed = (world1 5).destroyed + (if State.HeapOccupied = .Empty then 0 else 1)
      ∧ w1.deallocations
          = (world1 5).deallocations + (if State.HeapOccupied = .HeapOccupied then 1 else 0)
      ∧ (∀ a, (big_function 1).storage = .ptr (some a) → lookup w2.heap a = none)
      ∧ t1.state = some .InlineOccupied
      ∧ (∀ args : Int, t1.operator_call w2 args = (small_function 3).operator_call (world1 5) args)
      ∧ s1.state = some .Empty ∧ s1.operator_bool = .ok false :=
  move_assign_transfers (world1 5) (big_function 1) (small_function 3) .HeapOccupied
    .InlineOccupied rfl rfl rfl rfl

/-- C2, at the failing input: the copy constructor run on a HeapOccupied
source assigns to the handle of the new object, which no constructor has
initialised (line 79), so the stale value of that storage is deleted.  With a
stale value that points to no live wrapper the copy is undefined; with a stale
value equal to the source's handle the copy returns and the source, which gave
13 for 10 before, has lost its wrapper. -/
theorem copy_ctor_deletes_stale_handle :
    function.copy_ctor (world1 3) (some 7) (big_function 1) = .error .undefined
    ∧ (big_function 1).operator_call (world1 3) 10 = .ok 13
    ∧ ∃ w1 c, function.copy_ctor (world1 3) (some 1) (big_function 1) = .ok (w1, c)
        ∧ c.operator_call w1 10 = .ok 13
        ∧ (big_function 1).operator_call w1 10 = .error .undefined :=
  ⟨rfl, rfl, _, _, rfl, rfl, rfl⟩

/-- C8, at the failing input: the copy constructor run on an Empty source
calls `copy` through the null handle (line 79), in every world and whatever
the new storage holds: the behaviour is undefined and no container is
produced. -/
theorem copy_ctor_empty_undefined (w : World A R E) (junk : Option Addr) :
    function.copy_ctor w junk (function.default_ctor : function A R E) = .error .undefined
    ∧ function.copy_ctor w junk (function.nullptr_ctor : function A R E) = .error .undefined :=
  ⟨rfl, rfl⟩

/-- C9, at the failing input: copy assignment from a HeapOccupied source
builds its temporary with the copy constructor, so the stale value of the
temporary's storage is deleted.  With a stale value equal to the source's
handle the assignment returns, the target gives 13 for 10, and the source,
which gave 13 for 10 before, has lost its wrapper; with a stale value that
points to no live wrapper, and with an Empty source, the assignment is
undefined. -/
theorem copy_assign_deletes_stale_handle :
    (big_function 1).operator_call (world1 3) 10 = .ok 13
    ∧ (∃ w1 t1, (small_function 5).copy_assign (world1 3) (some 1) (big_function 1)
          = .ok (w1, t1)
        ∧ t1.operator_call w1 10 = .ok 13
        ∧ (big_function 1).operator_call w1 10 = .error .undefined)
    ∧ (small_function 5).copy_assign (world1 3) (some 7) (big_function 1) = .error .undefined
    ∧ (small_function 5).copy_assign (world1 3) none function.default_ctor
        = .error .undefined :=
  ⟨rfl, ⟨_, _, rfl, rfl, rfl⟩, rfl, rfl⟩

/-- Where the storage of the new object happens to hold a null handle, a copy
that returns gives a container with the outcomes of its source, and the source
keeps its own. -/
theorem copy_ctor_null_stale_handle (w w1 : World A R E) (s c : function A R E) (k : State)
    (hs : s.state = some k) (h : function.copy_ctor w none s = .ok (w1, c)) (args : A) :
    c.operator_call w1 args = s.operator_call w args
      ∧ s.operator_call w1 args = s.operator_call w args := by
  have h1 := noexcept_ok _ _ h
  rcases state_cases s k hs with ⟨obj, rfl, hn, rfl⟩ | ⟨rfl, rfl⟩ | ⟨a, rfl, rfl⟩
  · simp only [if_true, model.copy_to_buffer] at h1
    cases hc : obj.m.copy_construct with
    | error e => simp [hc] at h1
    | ok v =>
      have hv := copy_construct_ok obj.m v hc
      subst hv
      simp only [hc, Except.ok.injEq, Prod.mk.injEq] at h1
      obtain ⟨-, rfl⟩ := h1
      exact ⟨rfl, rfl⟩
  · simp at h1
  · simp only [Bool.false_eq_true, if_false] at h1
    cases hl : lookup w.heap a with
    | none => simp [hl] at h1
    | some obj =>
      simp only [hl, model.copy, make_unique] at h1
      cases hb : w.new_budget with
      | zero => simp [hb] at h1
      | succ b =>
        cases hc : obj.m.copy_construct with
        | error e => simp [hb, hc] at h1
        | ok v =>
          have hv := copy_construct_ok obj.m v hc
          subst hv
          simp only [hb, hc, unique_ptr_move_assign, unique_ptr_dtor, Except.ok.injEq,
            Prod.mk.injEq] at h1
          obtain ⟨rfl, rfl⟩ := h1
          constructor
          · simp [function.operator_call, lookup, hl]
          · simp only [function.operator_call, Bool.false_eq_true, if_false]
            rw [lookup_cons_fresh_of_some w.heap a _ obj hl, hl]

/-- C11, at the failing input: a HeapOccupied source is copied when
`operator new` has no memory left.  `model::copy` (line 46) raises
`std::bad_alloc`; the copy constructor is declared `noexcept` (line 74), so
the exception does not reach the caller of the copy: the program is
terminated, in the copy constructor and in the copy assignment built on it. -/
theorem copy_ctor_bad_alloc_terminates :
    model.copy ⟨big_adder 3⟩ (world_exhausted 3) = .error .bad_alloc
    ∧ function.copy_ctor (world_exhausted 3) none (big_function 1) = .error .terminate
    ∧ (small_function 5).copy_assign (world_exhausted 3) none (big_function 1)
        = .error .terminate :=
  ⟨rfl, rfl, rfl⟩

/-- C18: the container constructed from a callable is never Empty: whenever
the constructor returns, in inline mode or in heap mode, the boolean test of
the container is true.  The statement does not read what the callable does
when called. -/
theorem ctor_never_empty (n : Nat) (w w1 : World A R E) (f : Callable A R E)
    (c : function A R E) (h : function.ctor n w f = .ok (w1, c)) :
    c.operator_bool = .ok true ∧ c.state ≠ some .Empty
      ∧ (c.state = some .InlineOccupied ∨ c.state = some .HeapOccupied) := by
  by_cases hc : f.is_nothrow_move_constructible = true ∧ f.sizeof_model ≤ BUFFER_SIZE
      ∧ f.alignof_model ≤ n
  · rw [ctor_inline n w f hc.1 hc.2.1 hc.2.2] at h
    simp only [Except.ok.injEq, Prod.mk.injEq] at h
    obtain ⟨-, rfl⟩ := h
    have hst : (⟨true, .buffer ⟨f⟩⟩ : function A R E).state = some .InlineOccupied := by
      simp [function.state, hc.1]
    refine ⟨rfl, ?_, Or.inl hst⟩
    rw [hst]
    simp
  · obtain ⟨rfl, -, -, -⟩ := ctor_heap n w w1 f c hc h
    refine ⟨rfl, ?_, Or.inr rfl⟩
    simp [function.state]

theorem ctor_never_empty_witness :
    (big_function 1).operator_bool = (.ok true : Except (Fault String) Bool)
      ∧ (big_function 1).state ≠ some .Empty
      ∧ ((big_function 1).state = some .InlineOccupied
          ∨ (big_function 1).state = some .HeapOccupied) :=
  ctor_never_empty 8 world0 (world1 3) (big_adder 3) (big_function 1) rfl

/-- C12: for a callable that fails the inline test, the constructor, when it
returns, has made exactly one allocation and no deallocation; destroying the
container makes exactly one deallocation, of the wrapper allocated for it, and
no allocation; move construction from the container returns with the world
unchanged (no allocation, no deallocation), the new container holding the
same handle and the source the null handle, whose destruction releases
nothing. -/
theorem heap_ctor_allocates_once (n : Nat) (w w1 : World A R E) (f : Callable A R E)
    (c : function A R E)
    (hc : ¬ (f.is_nothrow_move_constructible = true ∧ f.sizeof_model ≤ 64
              ∧ f.alignof_model ≤ n))
    (h : function.ctor n w f = .ok (w1, c)) :
    w1.allocations = w.allocations + 1 ∧ w1.deallocations = w.deallocations
    ∧ (∃ a, c.storage = .ptr (some a) ∧ lookup w.heap a = none
        ∧ (lookup w1.heap a).isSome = true
        ∧ ∃ w2, c.dtor w1 = .ok w2 ∧ w2.allocations = w1.allocations
            ∧ w2.deallocations = w1.deallocations + 1 ∧ lookup w2.heap a = none)
    ∧ (∃ d s1, function.move_ctor w1 c = .ok (w1, d, s1) ∧ d.storage = c.storage
        ∧ s1.storage = .ptr none ∧ s1.dtor w1 = .ok w1) := by
  obtain ⟨rfl, hh, hal, hde⟩ := ctor_heap n w w1 f c hc h
  refine ⟨hal, hde, ⟨fresh w.heap, rfl, lookup_fresh w.heap, ?_, ?_⟩, ?_⟩
  · rw [hh, lookup_cons_self]
    rfl
  · have hl : lookup w1.heap (fresh w.heap) = some ⟨f⟩ := by
      rw [hh, lookup_cons_self]
    refine ⟨{ w1 with heap := erase w1.heap (fresh w.heap)
                      deallocations := w1.deallocations + 1
                      destroyed := w1.destroyed + 1 }, ?_, rfl, rfl, ?_⟩
    · simp [function.dtor, unique_ptr_dtor, delete, hl]
    · exact lookup_erase_self _ _
  · exact ⟨_, _, rfl, rfl, rfl, rfl⟩

theorem heap_ctor_allocates_once_witness :
    (world1 3).allocations = world0.allocations + 1
    ∧ (world1 3).deallocations = world0.deallocations
    ∧ (∃ a, (big_function 1).storage = .ptr (some a) ∧ lookup world0.heap a = none
        ∧ (lookup (world1 3).heap a).isSome = true
        ∧ ∃ w2, (big_function 1).dtor (world1 3) = .ok w2
            ∧ w2.allocations = (world1 3).allocations
            ∧ w2.deallocations = (world1 3).deallocations + 1 ∧ lookup w2.heap a = none)
    ∧ (∃ d s1, function.move_ctor (world1 3) (big_function 1) = .ok (world1 3, d, s1)
        ∧ d.storage = (big_function 1).storage
        ∧ s1.storage = .ptr none ∧ s1.dtor (world1 3) = .ok (world1 3)) :=
  heap_ctor_allocates_once 8 world0 (world1 3) (big_adder 3) (big_function 1) (by decide) rfl

theorem same_store_refl (w : World A R E) : same_store w w :=
  ⟨rfl, rfl, rfl, rfl⟩

theorem same_store_trans (w w1 w2 : World A R E) (h1 : same_store w w1)
    (h2 : same_store w1 w2) : same_store w w2 :=
  ⟨h2.1.trans h1.1, h2.2.1.trans h1.2.1, h2.2.2.1.trans h1.2.2.1, h2.2.2.2.trans h1.2.2.2⟩

theorem same_store_moved_out (s : function A R E) (w : World A R E) :
    same_store w (s.moved_out w) := by
  unfold function.moved_out relocated
  split
  · exact ⟨rfl, rfl, rfl, rfl⟩
  · exact same_store_refl w

theorem dtor_same_store (w : World A R E) (t : function A R E) (k : State)
    (ht : t.state = some k) (hk : k ≠ .HeapOccupied) :
    ∃ w1, t.dtor w = .ok w1 ∧ same_store w w1 := by
  rcases state_cases t k ht with ⟨obj, rfl, -, rfl⟩ | ⟨rfl, rfl⟩ | ⟨a, rfl, rfl⟩
  · exact ⟨obj.dtor w, rfl, rfl, rfl, rfl, rfl⟩
  · exact ⟨w, rfl, same_store_refl w⟩
  · exact absurd rfl hk

theorem move_assign_same_store (w : World A R E) (t s : function A R E) (kt ks : State)
    (ht : t.state = some kt) (hk : kt ≠ .HeapOccupied) (hs : s.state = some ks) :
    ∃ w1, t.move_assign w s = .ok (w1, s, function.default_ctor) ∧ same_store w w1 := by
  obtain ⟨w0, hd, hsame⟩ := dtor_same_store w t kt ht hk
  exact ⟨s.moved_out w0, move_assign_of_dtor w w0 t s ks hd hs,
    same_store_trans w w0 _ hsame (same_store_moved_out s w0)⟩

theorem swap_same_store (w : World A R E) (a b : function A R E) (ka kb : State)
    (ha : a.state = some ka) (hb : b.state = some kb) :
    ∃ w1, a.swap w b = .ok (w1, b, a) ∧ same_store w w1 :=
  ⟨_, swap_of_state w a b ka kb ha hb,
    same_store_trans w _ _ (same_store_moved_out b w)
      (same_store_trans _ _ _ (same_store_moved_out a _) (same_store_moved_out b _))⟩

theorem copy_ctor_buffer (w : World A R E) (junk : Option Addr) (obj : model A R E) :
    function.copy_ctor w junk ⟨true, .buffer obj⟩ =
      match obj.m.copy_ctor with
      | some _ => .error .terminate
      | none => .ok ({ w with constructed := w.constructed + 1 }, ⟨true, .buffer obj⟩) := by
  simp only [function.copy_ctor, model.copy_to_buffer, Callable.copy_construct, if_true]
  cases obj.m.copy_ctor <;> rfl

/-- C13: a callable that passes the inline test gives an InlineOccupied
container, and over the life of that container the free store is never
touched (no allocation, no deallocation): not by its construction, not by a
copy construction from it (which returns whenever the copy of the callable
does not throw), not by move construction from it, not by move assignment or
swap in either direction with a container that is InlineOccupied or Empty,
and not by its destruction. -/
theorem inline_never_allocates (n : Nat) (w w1 : World A R E) (f : Callable A R E)
    (c : function A R E)
    (hc : f.is_nothrow_move_constructible = true ∧ f.sizeof_model ≤ 64 ∧ f.alignof_model ≤ n)
    (h : function.ctor n w f = .ok (w1, c)) :
    c.state = some .InlineOccupied ∧ same_store w w1
    ∧ (∀ (v : World A R E) (junk : Option Addr),
        (f.copy_ctor = none → ∃ v1 d, function.copy_ctor v junk c = .ok (v1, d))
        ∧ ∀ v1 d, function.copy_ctor v junk c = .ok (v1, d) → same_store v v1)
    ∧ (∀ v : World A R E, ∃ v1 d s1, function.move_ctor v c = .ok (v1, d, s1) ∧ same_store v v1)
    ∧ (∀ (v : World A R E) (t : function A R E) (kt : State), t.state = some kt →
        kt ≠ .HeapOccupied →
          (∃ v1 t1 c1, t.move_assign v c = .ok (v1, t1, c1) ∧ same_store v v1)
          ∧ (∃ v1 c1 t1, c.move_assign v t = .ok (v1, c1, t1) ∧ same_store v v1)
          ∧ (∃ v1 t1 c1, t.swap v c = .ok (v1, t1, c1) ∧ same_store v v1)
          ∧ (∃ v1 c1 t1, c.swap v t = .ok (v1, c1, t1) ∧ same_store v v1))
    ∧ (∀ v : World A R E, ∃ v1, c.dtor v = .ok v1 ∧ same_store v v1) := by
  rw [ctor_inline n w f hc.1 hc.2.1 hc.2.2] at h
  simp only [Except.ok.injEq, Prod.mk.injEq] at h
  obtain ⟨rfl, rfl⟩ := h
  have hst : (⟨true, .buffer ⟨f⟩⟩ : function A R E).state = some .InlineOccupied := by
    simp [function.state, hc.1]
  have hne : State.InlineOccupied ≠ .HeapOccupied := by decide
  refine ⟨hst, ⟨rfl, rfl, rfl, rfl⟩, ?_, ?_, ?_, ?_⟩
  · intro v junk
    constructor
    · intro hcp
      rw [copy_ctor_buffer, hcp]
      exact ⟨_, _, rfl⟩
    · intro v1 d hcp
      rw [copy_ctor_buffer] at hcp
      cases hcc : f.copy_ctor with
      | some e => simp [hcc] at hcp
      | none =>
        simp only [hcc, Except.ok.injEq, Prod.mk.injEq] at hcp
        obtain ⟨rfl, -⟩ := hcp
        exact ⟨rfl, rfl, rfl, rfl⟩
  · intro v
    exact ⟨_, _, _, move_ctor_of_state v _ _ hst, same_store_moved_out _ v⟩
  · intro v t kt ht hkt
    refine ⟨?_, ?_, ?_, ?_⟩
    · obtain ⟨v1, hm, hs⟩ := move_assign_same_store v t _ kt .InlineOccupied ht hkt hst
      exact ⟨v1, _, _, hm, hs⟩
    · obtain ⟨v1, hm, hs⟩ := move_assign_same_store v _ t .InlineOccupied kt hst hne ht
      exact ⟨v1, _, _, hm, hs⟩
    · obtain ⟨v1, hm, hs⟩ := swap_same_store v t _ kt .InlineOccupied ht hst
      exact ⟨v1, _, _, hm, hs⟩
    · obtain ⟨v1, hm, hs⟩ := swap_same_store v _ t .InlineOccupied kt hst ht
      exact ⟨v1, _, _, hm, hs⟩
  · intro v
    exact dtor_same_store v _ _ hst hne

theorem inline_never_allocates_witness :
    (small_function 3).state = some .InlineOccupied
    ∧ same_store world0 ({ world0 with constructed := 1 } : World Int Int String)
    ∧ (∃ v1 d, function.copy_ctor (world1 5) (some 7) (small_function 3) = .ok (v1, d)
        ∧ same_store (world1 5) v1)
    ∧ (∃ v1 t1 c1, (function.default_ctor : function Int Int String).move_assign (world1 5)
          (small_function 3) = .ok (v1, t1, c1) ∧ same_store (world1 5) v1) := by
  have h := inline_never_allocates 8 world0 { world0 with constructed := 1 } (adder 3)
    (small_function 3) (by decide) rfl
  obtain ⟨v1, d, hcp⟩ := (h.2.2.1 (world1 5) (some 7)).1 rfl
  exact ⟨h.1, h.2.1, ⟨v1, d, hcp, (h.2.2.1 (world1 5) (some 7)).2 v1 d hcp⟩,
    (h.2.2.2.2.1 (world1 5) function.default_ctor .Empty rfl (by decide)).1⟩

theorem owned_of_state (c : function A R E) (k : State) (h : c.state = some k) :
    c.owned = if k = .Empty then 0 else 1 := by
  rcases state_cases c k h with ⟨obj, rfl, -, rfl⟩ | ⟨rfl, rfl⟩ | ⟨a, rfl, rfl⟩ <;> rfl

theorem moved_out_constructed (s : function A R E) (w : World A R E) :
    (s.moved_out w).constructed = w.constructed + (if s.is_small = true then 1 else 0) := by
  unfold function.moved_out relocated
  cases s.is_small <;> rfl

theorem moved_out_destroyed (s : function A R E) (w : World A R E) :
    (s.moved_out w).destroyed = w.destroyed + (if s.is_small = true then 1 else 0) := by
  unfold function.moved_out relocated
  cases s.is_small <;> rfl

theorem owned_default : (function.default_ctor : function A R E).owned = 0 := by
  rfl

/-- C16: wrapper lifetimes balance.  For two containers in any pair of
states, `swap` (its temporary destroyed), move construction and move
assignment return, and the wrapper constructions and destructions they run
are counted exactly: one construction and one destruction for every
relocation out of a buffer (two relocations of the argument's wrapper and one
of the receiver's in `swap`, one in a move), none for a handle, plus, in move
assignment, the one destruction of the wrapper the target held.  The live
wrappers on the free store are the same afterwards (less the one the target
of a move assignment held), and the containers together hold as many
wrappers as before (less that one). -/
theorem wrapper_lifetimes_balance (w : World A R E) (a b : function A R E) (ka kb : State)
    (ha : a.state = some ka) (hb : b.state = some kb) :
    (∃ w1 a1 b1, a.swap w b = .ok (w1, a1, b1)
      ∧ w1.constructed = w.constructed
          + ((if b.is_small = true then 2 else 0) + (if a.is_small = true then 1 else 0))
      ∧ w1.destroyed = w.destroyed
          + ((if b.is_small = true then 2 else 0) + (if a.is_small = true then 1 else 0))
      ∧ w1.heap = w.heap
      ∧ a1.owned + b1.owned = a.owned + b.owned)
    ∧ (∃ w1 d a1, function.move_ctor w a = .ok (w1, d, a1)
      ∧ w1.constructed = w.constructed + (if a.is_small = true then 1 else 0)
      ∧ w1.destroyed = w.destroyed + (if a.is_small = true then 1 else 0)
      ∧ w1.heap = w.heap
      ∧ d.owned + a1.owned = a.owned)
    ∧ (a.alive w = true → a.shares b = false →
        ∃ w1 a1 b1, a.move_assign w b = .ok (w1, a1, b1)
          ∧ w1.constructed = w.constructed + (if b.is_small = true then 1 else 0)
          ∧ w1.destroyed = w.destroyed + a.owned + (if b.is_small = true then 1 else 0)
          ∧ (∀ p, a.storage = .ptr (some p) → w1.heap = erase w.heap p)
          ∧ ((∀ p, a.storage ≠ .ptr (some p)) → w1.heap = w.heap)
          ∧ a1.owned + b1.owned = b.owned) := by
  refine ⟨?_, ?_, ?_⟩
  · refine ⟨_, _, _, swap_of_state w a b ka kb ha hb, ?_, ?_, ?_, ?_⟩
    · rw [moved_out_constructed, moved_out_constructed, moved_out_constructed]
      cases a.is_small <;> cases b.is_small <;> simp
    · rw [moved_out_destroyed, moved_out_destroyed, moved_out_destroyed]
      cases a.is_small <;> cases b.is_small <;> simp
    · rw [moved_out_heap, moved_out_heap, moved_out_heap]
    · exact Nat.add_comm _ _
  · exact ⟨_, _, _, move_ctor_of_state w a ka ha, moved_out_constructed a w,
      moved_out_destroyed a w, moved_out_heap a w, by rw [owned_default]; rfl⟩
  · intro hl hsh
    obtain ⟨w1, hd, hdes, -, hheap, hnone, hbuf⟩ := dtor_of_state w a ka ha hl
    have hcon : w1.constructed = w.constructed := by
      rcases state_cases a ka ha with ⟨obj, rfl, -, rfl⟩ | ⟨rfl, rfl⟩ | ⟨p, rfl, rfl⟩
      · simp only [function.dtor, if_true, Except.ok.injEq] at hd
        rw [← hd]
        rfl
      · simp only [function.dtor, unique_ptr_dtor, Bool.false_eq_true, if_false,
          Except.ok.injEq] at hd
        rw [← hd]
      · simp only [function.dtor, unique_ptr_dtor, delete, Bool.false_eq_true, if_false] at hd
        split at hd
        · cases hd
        · simp only [Except.ok.injEq] at hd
          rw [← hd]
    refine ⟨_, _, _, move_assign_of_dtor w w1 a b kb hd hb, ?_, ?_, ?_, ?_, ?_⟩
    · rw [moved_out_constructed, hcon]
    · rw [moved_out_destroyed, hdes, owned_of_state a ka ha]
    · intro p hp
      rw [moved_out_heap]
      exact hheap p hp
    · intro hp
      rw [moved_out_heap]
      cases hst : a.storage with
      | buffer obj => exact hbuf obj hst
      | ptr q =>
        cases q with
        | none => exact hnone hst
        | some p => exact absurd hst (hp p)
    · rw [owned_default]
      rfl

theorem wrapper_lifetimes_balance_witness :
    ∃ w1 a1 b1, (big_function 1).move_assign (world1 5) (small_function 3) = .ok (w1, a1, b1)
      ∧ w1.constructed = (world1 5).constructed + 1
      ∧ w1.destroyed = (world1 5).destroyed + 1 + 1
      ∧ lookup w1.heap 1 = none
      ∧ a1.owned + b1.owned = 1 := by
  obtain ⟨w1, a1, b1, hm, hc, hd, hh, -, ho⟩ :=
    (wrapper_lifetimes_balance (world1 5) (big_function 1) (small_function 3) .HeapOccupied
      .InlineOccupied rfl rfl).2.2 rfl rfl
  refine ⟨w1, a1, b1, hm, hc, hd, ?_, ho⟩
  rw [hh 1 rfl]
  rfl

theorem is_small_of_state (c : function A R E) (k : State) (h : c.state = some k) :
    c.is_small = decide (k = .InlineOccupied) := by
  rcases state_cases c k h with ⟨obj, rfl, -, rfl⟩ | ⟨rfl, rfl⟩ | ⟨a, rfl, rfl⟩ <;> rfl

/-- C15: every container value produced from the constructors by copy and move
construction, copy and move assignment and swap (invocation is `const` and
produces no container) is in exactly one of the three states; its flag is
true exactly when the union holds a wrapper in the buffer, and false exactly
when the union holds the handle, null or not. -/
theorem single_active_representation (c : function A R E) (h : Reachable c) :
    (∃! k, c.state = some k)
    ∧ (c.is_small = true ↔ ∃ obj, c.storage = .buffer obj)
    ∧ (c.is_small = false ↔ ∃ p, c.storage = .ptr p)
    ∧ (c.state = some .InlineOccupied ↔ c.is_small = true)
    ∧ (c.state = some .Empty ↔ c.storage = .ptr none)
    ∧ (c.state = some .HeapOccupied ↔ ∃ a, c.storage = .ptr (some a)) := by
  obtain ⟨k, hk⟩ := reachable_state c h
  have huniq : ∃! k, c.state = some k := by
    refine ⟨k, hk, ?_⟩
    intro k1 hk1
    rw [hk] at hk1
    exact (Option.some.inj hk1).symm
  rcases state_cases c k hk with ⟨obj, rfl, hn, rfl⟩ | ⟨rfl, rfl⟩ | ⟨a, rfl, rfl⟩
  · refine ⟨huniq, ⟨fun _ => ⟨obj, rfl⟩, fun _ => rfl⟩, ⟨fun h1 => ?_, fun h1 => ?_⟩,
      ⟨fun _ => rfl, fun _ => hk⟩, ⟨fun h1 => ?_, fun h1 => ?_⟩, ⟨fun h1 => ?_, fun h1 => ?_⟩⟩
    · cases h1
    · obtain ⟨p, hp⟩ := h1
      cases hp
    · rw [hk] at h1
      cases h1
    · cases h1
    · rw [hk] at h1
      cases h1
    · obtain ⟨p, hp⟩ := h1
      cases hp
  · refine ⟨huniq, ⟨fun h1 => ?_, fun h1 => ?_⟩, ⟨fun _ => ⟨none, rfl⟩, fun _ => rfl⟩,
      ⟨fun h1 => ?_, fun h1 => ?_⟩, ⟨fun _ => rfl, fun _ => rfl⟩, ⟨fun h1 => ?_, fun h1 => ?_⟩⟩
    · cases h1
    · obtain ⟨p, hp⟩ := h1
      cases hp
    · rw [hk] at h1
      cases h1
    · cases h1
    · rw [hk] at h1
      cases h1
    · obtain ⟨p, hp⟩ := h1
      cases hp
  · refine ⟨huniq, ⟨fun h1 => ?_, fun h1 => ?_⟩, ⟨fun _ => ⟨some a, rfl⟩, fun _ => rfl⟩,
      ⟨fun h1 => ?_, fun h1 => ?_⟩, ⟨fun h1 => ?_, fun h1 => ?_⟩,
      ⟨fun _ => ⟨a, rfl⟩, fun _ => rfl⟩⟩
    · cases h1
    · obtain ⟨p, hp⟩ := h1
      cases hp
    · rw [hk] at h1
      cases h1
    · cases h1
    · rw [hk] at h1
      cases h1
    · cases h1

theorem single_active_representation_witness :
    (∃! k, (big_function 1).state = some k)
    ∧ ((big_function 1).is_small = true ↔ ∃ obj, (big_function 1).storage = .buffer obj)
    ∧ ((big_function 1).is_small = false ↔ ∃ p, (big_function 1).storage = .ptr p)
    ∧ ((big_function 1).state = some .InlineOccupied ↔ (big_function 1).is_small = true)
    ∧ ((big_function 1).state = some .Empty ↔ (big_function 1).storage = .ptr none)
    ∧ ((big_function 1).state = some .HeapOccupied
        ↔ ∃ a, (big_function 1).storage = .ptr (some a)) :=
  single_active_representation (big_function 1)
    (Reachable.swap_this (world1 3) _ (small_function 5) (big_function 1) _ _
      (Reachable.ctor 8 world0 { world0 with constructed := 1 } (adder 5) (small_function 5) rfl)
      (Reachable.ctor 8 world0 (world1 3) (big_adder 3) (big_function 1) rfl)
      (swap_of_state (world1 3) (small_function 5) (big_function 1) .InlineOccupied
        .HeapOccupied rfl rfl))

/-- C17, at the failing input: a container is constructed from a large
closure and copied.  The copy constructor deletes the stale value of the new
handle (line 79).  When that value is the address the new wrapper is then
allocated at, the copy returns a container whose boolean test is true and
whose handle points to no live wrapper; when it is the source's handle, the
source is left so.  Both containers are produced by the member functions,
both test true, and invoking either dispatches to no wrapper. -/
theorem occupied_without_live_wrapper :
    function.ctor 8 world0 (big_adder 3) = .ok (world1 3, big_function 1)
    ∧ (∃ w1 c, function.copy_ctor (world1 3) (some 2) (big_function 1) = .ok (w1, c)
        ∧ c.operator_bool = .ok true ∧ c.alive w1 = false
        ∧ c.operator_call w1 10 = .error .undefined)
    ∧ (∃ w1 c, function.copy_ctor (world1 3) (some 1) (big_function 1) = .ok (w1, c)
        ∧ (big_function 1).operator_bool = (.ok true : Except (Fault String) Bool)
        ∧ (big_function 1).alive w1 = false
        ∧ (big_function 1).operator_call w1 10 = .error .undefined) :=
  ⟨rfl, ⟨_, _, rfl, rfl, rfl, rfl⟩, ⟨_, _, rfl, rfl, rfl, rfl⟩⟩

/-- C19: the storage mode travels with the value.  A copy construction or a
move assignment that returns, and every move construction, give a destination
in the state of the source, with the source's flag; `swap` gives each
container the state and the flag the other had.  Nothing in the statement
depends on the size or alignment of the wrapped callable: the test of line 89
is not run again. -/
theorem storage_mode_preserved (w : World A R E) (s : function A R E) (k : State)
    (hs : s.state = some k) :
    (∀ junk w1 c, function.copy_ctor w junk s = .ok (w1, c) →
        c.state = some k ∧ c.is_small = s.is_small)
    ∧ (∃ w1 d s1, function.move_ctor w s = .ok (w1, d, s1)
        ∧ d.state = some k ∧ d.is_small = s.is_small)
    ∧ (∀ (t : function A R E) w1 t1 s1, t.move_assign w s = .ok (w1, t1, s1) →
        t1.state = some k ∧ t1.is_small = s.is_small)
    ∧ (∀ (b : function A R E) (kb : State), b.state = some kb →
        ∃ w1 s1 b1, s.swap w b = .ok (w1, s1, b1)
          ∧ s1.state = some kb ∧ b1.state = some k
          ∧ s1.is_small = b.is_small ∧ b1.is_small = s.is_small) := by
  refine ⟨?_, ?_, ?_, ?_⟩
  · intro junk w1 c hc
    have hcs := copy_ctor_state w w1 junk s c k hs hc
    exact ⟨hcs, by rw [is_small_of_state c k hcs, is_small_of_state s k hs]⟩
  · exact ⟨_, _, _, move_ctor_of_state w s k hs, hs, rfl⟩
  · intro t w1 t1 s1 hm
    obtain ⟨_, -, -, rfl, -⟩ := move_assign_ok w w1 t s t1 s1 k hs hm
    exact ⟨hs, rfl⟩
  · intro b kb hb
    exact ⟨_, _, _, swap_of_state w s b k kb hs hb, hb, hs, rfl, rfl⟩

theorem storage_mode_preserved_witness :
    (∃ w1 c, function.copy_ctor (world1 3) none (big_function 1) = .ok (w1, c)
        ∧ c.state = some .HeapOccupied ∧ c.is_small = false)
    ∧ (∃ w1 t1 s1, (small_function 5).move_assign (world1 3) (big_function 1) = .ok (w1, t1, s1)
        ∧ t1.state = some .HeapOccupied ∧ t1.is_small = false)
    ∧ (∃ w1 s1 b1, (big_function 1).swap (world1 3) (small_function 5) = .ok (w1, s1, b1)
        ∧ s1.state = some .InlineOccupied ∧ b1.state = some .HeapOccupied
        ∧ s1.is_small = true ∧ b1.is_small = false) := by
  have h := storage_mode_preserved (world1 3) (big_function 1) .HeapOccupied rfl
  refine ⟨⟨_, _, rfl, h.1 none _ _ rfl⟩, ⟨_, _, _, rfl, h.2.2.1 (small_function 5) _ _ _ rfl⟩,
    h.2.2.2 (small_function 5) .InlineOccupied rfl⟩

/-- C14, at the failing input: a HeapOccupied source that returns 13 for 10 is
copied.  The copy constructor deletes the stale value of the new handle
(line 79).  When that value is the address the new wrapper is allocated at,
the copy holds a handle to no wrapper: it owns none.  When it is the source's
handle, the copy constructor has destroyed the wrapper of the source: after
the copy is destroyed the source no longer returns 13 for 10, and destroying
the source instead deletes its wrapper a second time. -/
theorem copy_destroys_wrapper_of_other :
    (big_function 1).operator_call (world1 3) 10 = .ok 13
    ∧ (∃ w1 c, function.copy_ctor (world1 3) (some 2) (big_function 1) = .ok (w1, c)
        ∧ c.alive w1 = false ∧ c.operator_call w1 10 = .error .undefined)
    ∧ (∃ w1 c, function.copy_ctor (world1 3) (some 1) (big_function 1) = .ok (w1, c)
        ∧ (∃ w2, c.dtor w1 = .ok w2
            ∧ (big_function 1).operator_call w2 10 = .error .undefined)
        ∧ (big_function 1).dtor w1 = .error .undefined) :=
  ⟨rfl, ⟨_, _, rfl, rfl, rfl⟩, ⟨_, _, rfl, ⟨_, rfl, rfl⟩, rfl⟩⟩

/-- Where the storage of the new object happens to hold a null handle, the
copy is deep: it does not hold the handle of its source, both hold live
wrappers, and destroying either leaves the other with the outcomes the source
had. -/
theorem copy_is_deep_null_stale_handle (w w1 : World A R E) (s c : function A R E) (k : State)
    (hs : s.state = some k) (h : function.copy_ctor w none s = .ok (w1, c)) :
    c.shares s = false ∧ c.alive w1 = true ∧ s.alive w1 = true
    ∧ (∃ w2, c.dtor w1 = .ok w2 ∧ ∀ args : A, s.operator_call w2 args = s.operator_call w args)
    ∧ (∃ w2, s.dtor w1 = .ok w2
        ∧ ∀ args : A, c.operator_call w2 args = s.operator_call w args) := by
  have h1 := noexcept_ok _ _ h
  rcases state_cases s k hs with ⟨obj, rfl, hn, rfl⟩ | ⟨rfl, rfl⟩ | ⟨a, rfl, rfl⟩
  · simp only [if_true, model.copy_to_buffer] at h1
    cases hc : obj.m.copy_construct with
    | error e => simp [hc] at h1
    | ok v =>
      have hv := copy_construct_ok obj.m v hc
      subst hv
      simp only [hc, Except.ok.injEq, Prod.mk.injEq] at h1
      obtain ⟨rfl, rfl⟩ := h1
      exact ⟨rfl, rfl, rfl, ⟨_, rfl, fun _ => rfl⟩, ⟨_, rfl, fun _ => rfl⟩⟩
  · simp at h1
  · simp only [Bool.false_eq_true, if_false] at h1
    cases hl : lookup w.heap a with
    | none => simp [hl] at h1
    | some obj =>
      simp only [hl, model.copy, make_unique] at h1
      cases hb : w.new_budget with
      | zero => simp [hb] at h1
      | succ b =>
        cases hc : obj.m.copy_construct with
        | error e => simp [hb, hc] at h1
        | ok v =>
          have hv := copy_construct_ok obj.m v hc
          subst hv
          simp only [hb, hc, unique_ptr_move_assign, unique_ptr_dtor, Except.ok.injEq,
            Prod.mk.injEq] at h1
          obtain ⟨hw, rfl⟩ := h1
          have hlt := lookup_lt_fresh w.heap a obj hl
          have hne : a ≠ fresh w.heap := Nat.ne_of_lt hlt
          have hh : w1.heap = (fresh w.heap, (⟨obj.m⟩ : model A R E)) :: w.heap := by
            rw [← hw]
          have hla : lookup w1.heap a = some obj := by
            rw [hh]
            exact lookup_cons_fresh_of_some w.heap a _ obj hl
          have hlf : lookup w1.heap (fresh w.heap) = some ⟨obj.m⟩ := by
            rw [hh, lookup_cons_self]
          refine ⟨?_, ?_, ?_, ?_, ?_⟩
          · simp [function.shares, hne.symm]
          · simp [function.alive, hlf]
          · simp [function.alive, hla]
          · refine ⟨{ w1 with heap := erase w1.heap (fresh w.heap)
                              deallocations := w1.deallocations + 1
                              destroyed := w1.destroyed + 1 }, ?_, ?_⟩
            · simp only [function.dtor, unique_ptr_dtor, delete, hlf,
                Bool.false_eq_true, if_false]
            · intro args
              simp only [function.operator_call, Bool.false_eq_true, if_false]
              rw [lookup_erase_ne _ _ _ hne, hla, hl]
          · refine ⟨{ w1 with heap := erase w1.heap a
                              deallocations := w1.deallocations + 1
                              destroyed := w1.destroyed + 1 }, ?_, ?_⟩
            · simp only [function.dtor, unique_ptr_dtor, delete, hla,
                Bool.false_eq_true, if_false]
            · intro args
              simp only [function.operator_call, Bool.false_eq_true, if_false]
              rw [lookup_erase_ne _ _ _ hne.symm, hlf, hl]

end my_function
